import Mathlib

/-!
Shallow embedding of the pulseexplorer indexing pipeline
(src/src/indexer/BlockFetcher.js together with the BlockStorage class in the
same file, src/unnamed/part_004 = RpcClient.js, src/unnamed/part_001 = lib/db.js,
schema in src/unnamed/part_003 = scripts/setup-db.js).

Modelling conventions:
- JS numbers are Nat (all quantities here are non-negative block heights,
  byte values, millisecond durations).
- Node Buffers are List Nat (one byte per entry).
- Nullable / possibly-undefined JS values are Option.
- Fallible async code is Except String (the thrown error message).
- The blocks table is a List Row; the UNIQUE constraints of the schema
  (hash PRIMARY KEY, number UNIQUE) are enforced by the insert embedding
  exactly as PostgreSQL would: an ON CONFLICT (hash) DO NOTHING insert
  whose hash already exists is a silent no-op (rowCount 0), and an insert
  whose number collides with a different hash raises a unique violation.
- Time is not executed: sleep durations are collected in trace lists.
-/

instance exceptDecEq {ε α : Type} [DecidableEq ε] [DecidableEq α] :
    DecidableEq (Except ε α) := fun x y =>
  match x, y with
  | .ok a, .ok b =>
    if h : a = b then .isTrue (by rw [h])
    else .isFalse (fun hc => h (by injection hc))
  | .error a, .error b =>
    if h : a = b then .isTrue (by rw [h])
    else .isFalse (fun hc => h (by injection hc))
  | .ok _, .error _ => .isFalse (fun hc => Except.noConfusion hc)
  | .error _, .ok _ => .isFalse (fun hc => Except.noConfusion hc)

/-- Value of one hex digit character, as Node's hex decoder accepts it
(0-9, a-f, A-F). -/
def hexDigitVal (c : Char) : Option Nat :=
  if '0' ≤ c ∧ c ≤ '9' then some (c.toNat - 48)
  else if 'a' ≤ c ∧ c ≤ 'f' then some (c.toNat - 97 + 10)
  else if 'A' ≤ c ∧ c ≤ 'F' then some (c.toNat - 65 + 10)
  else none

/-- Node Buffer.from(s, 'hex') semantics on a character list: consume pairs of
hex digits, stopping (without error) at the first invalid or incomplete pair. -/
def bufferFromHexAux : List Char → List Nat
  | c1 :: c2 :: rest =>
    match hexDigitVal c1, hexDigitVal c2 with
    | some hi, some lo => (16 * hi + lo) :: bufferFromHexAux rest
    | _, _ => []
  | _ => []

/-- Node Buffer.from(s, 'hex'). -/
def bufferFromHex (s : String) : List Nat :=
  bufferFromHexAux s.toList

/-- Node buffer.toString('hex'): two lowercase hex digits per byte. -/
def hexEncode (bytes : List Nat) : String :=
  String.mk (bytes.flatMap (fun b => [Nat.digitChar (b / 16 % 16), Nat.digitChar (b % 16)]))

/-- JS parseInt on the decimal strings used by the configuration defaults:
value of the leading digit run, none when there is no leading digit (NaN). -/
def parseIntJS (s : String) : Option Nat :=
  let ds := s.toList.takeWhile Char.isDigit
  if ds.isEmpty then none
  else some (ds.foldl (fun n c => n * 10 + (c.toNat - 48)) 0)

/-- A block as delivered by ethers.js through RpcClient.getBlock.  Fields the
source dereferences unconditionally but that JS would let be null/undefined
are Option; transformBlock throws on the mandatory ones. -/
structure Block where
  hash : Option String
  parentHash : Option String
  number : Nat
  timestamp : Nat
  nonce : Option String
  difficulty : Option Nat
  gasLimit : Option Nat
  gasUsed : Option Nat
  miner : Option String
  extraData : Option String
  baseFeePerGas : Option Nat
  transactionsRoot : Option String
  stateRoot : Option String
  receiptsRoot : Option String
  sizeField : Option Nat
  transactions : List String
deriving Repr, DecidableEq

/-- A row of the blocks table as BlockStorage.transformBlock builds it.
number is the BIGINT column (the driver's decimal string is cast by
PostgreSQL); timestamp is the Date's millisecond value; nonce is whatever
JS value the source puts in blockData.nonce — a String, not a Buffer. -/
structure Row where
  hash : List Nat
  parent_hash : List Nat
  number : Nat
  timestamp : Nat
  nonce : String
  difficulty : String
  gas_limit : String
  gas_used : String
  miner : List Nat
  extra_data : Option (List Nat)
  base_fee_per_gas : Option String
  transactions_root : List Nat
  state_root : List Nat
  receipts_root : List Nat
  size : Nat
  transaction_count : Nat
deriving Repr, DecidableEq

/-- The blocks table. -/
abbrev Store := List Row

namespace Config

/-- parseInt(process.env.INDEXER_BATCH_SIZE || '10') from the config object at
the top of BlockFetcher.js. -/
def batchSize (env : Option String) : Option Nat :=
  parseIntJS (env.getD "10")

/-- parseInt(process.env.RPC_RETRIES || '3'). -/
def rpcRetries (env : Option String) : Option Nat :=
  parseIntJS (env.getD "3")

/-- parseInt(process.env.INDEXER_START_BLOCK || '0'). -/
def startBlock (env : Option String) : Option Nat :=
  parseIntJS (env.getD "0")

end Config

namespace BlockStorage

/-- The 32 zero bytes Buffer.from('0'.repeat(64), 'hex') used for missing
Merkle roots. -/
def zeroRoot : List Nat :=
  bufferFromHex (String.mk (List.replicate 64 '0'))

/-- BlockStorage.transformBlock.  Mandatory fields (hash, parentHash, miner,
gasLimit, gasUsed) are dereferenced without a guard in JS, so a missing one
throws; everything else follows the source's truthiness checks ('' , 0, null
and undefined are falsy). -/
def transformBlock (b : Block) : Except String Row :=
  match b.hash, b.parentHash, b.miner, b.gasLimit, b.gasUsed with
  | some h, some ph, some mi, some gl, some gu =>
    .ok {
      hash := bufferFromHex (h.drop 2)
      parent_hash := bufferFromHex (ph.drop 2)
      number := b.number
      timestamp := b.timestamp * 1000
      nonce := match b.nonce with
        | some s => if s = "" then "0" else s
        | none => "0"
      difficulty := match b.difficulty with
        | some d => toString d
        | none => "0"
      gas_limit := toString gl
      gas_used := toString gu
      miner := bufferFromHex (mi.drop 2)
      extra_data := match b.extraData with
        | some s => if s = "" then none else some (bufferFromHex (s.drop 2))
        | none => none
      base_fee_per_gas := match b.baseFeePerGas with
        | some f => if f = 0 then none else some (toString f)
        | none => none
      transactions_root := match b.transactionsRoot with
        | some s => if s = "" then zeroRoot else bufferFromHex (s.drop 2)
        | none => zeroRoot
      state_root := match b.stateRoot with
        | some s => if s = "" then zeroRoot else bufferFromHex (s.drop 2)
        | none => zeroRoot
      receipts_root := match b.receiptsRoot with
        | some s => if s = "" then zeroRoot else bufferFromHex (s.drop 2)
        | none => zeroRoot
      size := b.sizeField.getD 0
      transaction_count := b.transactions.length }
  | _, _, _, _, _ => .error "TypeError: cannot read mandatory block field"

/-- One INSERT INTO blocks ... ON CONFLICT (hash) DO NOTHING against the
schema of setup-db.js: a duplicate hash is silently skipped (rowCount 0); a
duplicate number under a fresh hash violates the UNIQUE(number) constraint
and raises; otherwise the row is appended (rowCount 1). -/
def insertRow (r : Row) (s : Store) : Except String (Store × Nat) :=
  if s.any (fun q => q.hash = r.hash) then .ok (s, 0)
  else if s.any (fun q => q.number = r.number) then
    .error "unique violation: blocks_number_key"
  else .ok (s ++ [r], 1)

/-- BlockStorage.saveBlock: transform, insert with the conflict clause, and
return true.  The JS function returns true on every non-throwing path; it
never inspects the insert's row count. -/
def saveBlock (b : Block) (s : Store) : Except String (Store × Bool) :=
  match transformBlock b with
  | .error e => .error e
  | .ok r =>
    match insertRow r s with
    | .error e => .error e
    | .ok (s', _) => .ok (s', true)

/-- The loop body of BlockStorage.saveBlocks inside db.transaction: transform
and insert each block in order, counting rows with rowCount > 0. -/
def insertLoop : List Block → Store → Nat → Except String (Store × Nat)
  | [], s, saved => .ok (s, saved)
  | b :: rest, s, saved =>
    match transformBlock b with
    | .error e => .error e
    | .ok r =>
      match insertRow r s with
      | .error e => .error e
      | .ok (s', c) => insertLoop rest s' (if 0 < c then saved + 1 else saved)

/-- BlockStorage.saveBlocks.  The middle component records whether
db.transaction was entered (false on the early return for null/empty input).
db.transaction's BEGIN/COMMIT/ROLLBACK semantics: on callback success the
new store is committed; on any error the store reverts to its pre-call state
and the error is rethrown. -/
def saveBlocks (blocks : Option (List Block)) (s : Store) :
    Store × Bool × Except String Nat :=
  match blocks with
  | none => (s, false, .ok 0)
  | some bs =>
    if bs.length = 0 then (s, false, .ok 0)
    else
      match insertLoop bs s 0 with
      | .ok (s', n) => (s', true, .ok n)
      | .error e => (s, true, .error e)

/-- BlockStorage.getBlock: SELECT * FROM blocks WHERE number = $1, rows[0]
(null when no row matches). -/
def getBlock (n : Nat) (s : Store) : Option Row :=
  s.find? (fun r => r.number = n)

/-- BlockStorage.getLastBlockNumber: SELECT number ... ORDER BY number DESC
LIMIT 1, i.e. the maximum stored number; null on an empty table. -/
def getLastBlockNumber (s : Store) : Option Nat :=
  match s with
  | [] => none
  | r :: rest => some ((rest.map Row.number).foldl Nat.max r.number)

/-- BlockStorage.deleteBlocksFrom: DELETE FROM blocks WHERE number >= $1,
returning the surviving table and the deleted row count. -/
def deleteBlocksFrom (n : Nat) (s : Store) : Store × Nat :=
  (s.filter (fun r => decide (r.number < n)),
   (s.filter (fun r => decide (n ≤ r.number))).length)

end BlockStorage

namespace RpcClient

/-- Outcome of one this.httpProvider.getBlock(n, withTx) call: a block, a
null response ("no such block"), or a thrown transport error. -/
inductive RpcResp where
  | ok (b : Block)
  | nullResp
  | err (e : String)
deriving Repr, DecidableEq

/-- Observable trace of one RpcClient.getBlock call: how many provider calls
it issued, the sleeps (ms) between them, and the returned value or the error
finally thrown.  The error payload is the JS lastError variable, which is
null (none) only when the retry loop never ran (maxRetries = 0). -/
structure RpcCall where
  calls : Nat
  sleeps : List Nat
  result : Except (Option String) (Option Block)
deriving Repr, DecidableEq

/-- The for-loop of RpcClient.getBlock over the remaining attempt indices
(attempt values attempt..maxRetries-1).  A block or null response returns
immediately; an error on a non-final attempt sleeps 2^attempt * 1000 ms and
retries; an error on the final attempt is thrown. -/
def getBlockLoop (oracle : Nat → RpcResp) : List Nat → RpcCall
  | [] => ⟨0, [], .error none⟩
  | a :: rest =>
    match oracle a with
    | .ok b => ⟨1, [], .ok (some b)⟩
    | .nullResp => ⟨1, [], .ok none⟩
    | .err e =>
      match rest with
      | [] => ⟨1, [], .error (some e)⟩
      | _ :: _ =>
        let t := getBlockLoop oracle rest
        ⟨t.calls + 1, (2 ^ a * 1000) :: t.sleeps, t.result⟩

/-- RpcClient.getBlock with maxRetries = config.retries: attempts indexed
0, 1, ..., maxRetries - 1, driven by an oracle giving each provider call's
outcome. -/
def getBlock (oracle : Nat → RpcResp) (maxRetries : Nat) : RpcCall :=
  getBlockLoop oracle (List.range' 0 maxRetries)

/-- The loop of RpcClient.getBlockRange, with this.getBlock abstracted to its
net effect per height (a block, null, or an exhausted-retries error).  A null
block is not pushed; an error aborts the whole call. -/
def getBlockRangeLoop (fetch : Nat → Except String (Option Block)) :
    Nat → Nat → Except String (List Block)
  | _, 0 => .ok []
  | bn, fuel + 1 =>
    match fetch bn with
    | .error e => .error e
    | .ok none => getBlockRangeLoop fetch (bn + 1) fuel
    | .ok (some b) =>
      match getBlockRangeLoop fetch (bn + 1) fuel with
      | .error e => .error e
      | .ok bs => .ok (b :: bs)

/-- RpcClient.getBlockRange(fromBlock, toBlock): sequential getBlock calls
for blockNum = fromBlock..toBlock. -/
def getBlockRange (fetch : Nat → Except String (Option Block))
    (fromBlock toBlock : Nat) : Except String (List Block) :=
  getBlockRangeLoop fetch fromBlock (toBlock + 1 - fromBlock)

end RpcClient

namespace BlockFetcher

/-- this.currentBlock after BlockFetcher.initialize():
lastIndexedBlock || config.indexer.startBlock, where getLastBlockNumber
yields null on an empty table and both null and 0 are falsy. -/
def initializeCurrentBlock (s : Store) (startBlock : Nat) : Nat :=
  match BlockStorage.getLastBlockNumber s with
  | some n => if n ≠ 0 then n else startBlock
  | none => startBlock

/-- The branch condition of BlockFetcher.checkForReorgs for one block: not the
genesis block, a row is stored at its height, and the stored row's
'0x'-prefixed hex hash differs from the fetched block's hash. -/
def triggersReorg (b : Block) (s : Store) : Bool :=
  decide (b.number ≠ 0) &&
    match BlockStorage.getBlock b.number s with
    | some row => decide (some ("0x" ++ hexEncode row.hash) ≠ b.hash)
    | none => false

/-- BlockFetcher.checkForReorgs: scan the fetched blocks in order; on the
first reorg hit, delete the stored rows from that height, rewind
currentBlock to height - 1 and break; otherwise leave store and cursor
untouched. -/
def checkForReorgs : List Block → Store → Nat → Store × Nat
  | [], s, cur => (s, cur)
  | b :: rest, s, cur =>
    if b.number = 0 then checkForReorgs rest s cur
    else
      match BlockStorage.getBlock b.number s with
      | none => checkForReorgs rest s cur
      | some row =>
        if some ("0x" ++ hexEncode row.hash) ≠ b.hash then
          ((BlockStorage.deleteBlocksFrom b.number s).1, b.number - 1)
        else checkForReorgs rest s cur

/-- BlockFetcher.fetchAndSaveBatch: getBlockRange, early return on an empty
result, optional reorg check, then saveBlocks.  Result: the store, the
cursor, and the saved count or the propagated error.  The reorg deletion is
not inside the saveBlocks transaction, so it persists even when saveBlocks
then fails. -/
def fetchAndSaveBatch (fetch : Nat → Except String (Option Block))
    (fromBlock toBlock : Nat) (enableReorgCheck : Bool)
    (s : Store) (cur : Nat) : (Store × Nat) × Except String Nat :=
  match RpcClient.getBlockRange fetch fromBlock toBlock with
  | .error e => ((s, cur), .error e)
  | .ok blocks =>
    if blocks.length = 0 then ((s, cur), .ok 0)
    else
      let sc := if enableReorgCheck then checkForReorgs blocks s cur else (s, cur)
      match BlockStorage.saveBlocks (some blocks) sc.1 with
      | (s2, _, .ok n) => ((s2, sc.2), .ok n)
      | (s2, _, .error e) => ((s2, sc.2), .error e)

/-- The while-loop of BlockFetcher.fetchAndSaveBatchWithRetry over the
remaining retryCount values (retryCount..maxRetries).  Success returns at
once; a failure at the last value rethrows; otherwise it sleeps
2^(retryCount+1) * 1000 ms and retries.  Returns (attempts, sleeps, result). -/
def batchRetryLoop (runAttempt : Nat → Except String Unit) :
    List Nat → Nat × List Nat × Except String Unit
  | [] => (0, [], .ok ())
  | k :: rest =>
    match runAttempt k with
    | .ok _ => (1, [], .ok ())
    | .error e =>
      match rest with
      | [] => (1, [], .error e)
      | _ :: _ =>
        let t := batchRetryLoop runAttempt rest
        (t.1 + 1, (2 ^ (k + 1) * 1000) :: t.2.1, t.2.2)

/-- BlockFetcher.fetchAndSaveBatchWithRetry with the fetch-check-save unit
abstracted to an oracle per attempt: retryCount runs 0..maxRetries, so at
most maxRetries + 1 attempts. -/
def fetchAndSaveBatchWithRetry (runAttempt : Nat → Except String Unit)
    (maxRetries : Nat) : Nat × List Nat × Except String Unit :=
  batchRetryLoop runAttempt (List.range' 0 (maxRetries + 1))

/-- The result tracking of BlockFetcher.syncHistoricalBlocks over the settled
batch outcomes: fulfilled batches bump the processed counter, rejected ones
are appended to the failed list; no outcome aborts the walk. -/
def trackBatchResults (runBatch : Nat × Nat → Except String Unit)
    (batches : List (Nat × Nat)) : Nat × List (Nat × Nat) :=
  batches.foldl
    (fun acc b =>
      match runBatch b with
      | .ok _ => (acc.1 + 1, acc.2)
      | .error _ => (acc.1, acc.2 ++ [b]))
    (0, [])

end BlockFetcher

/-! Concrete sample data used by counterexamples and witnesses. -/

/-- A fully populated remote block at height n with the given hash. -/
def sampleBlock (n : Nat) (h : String) : Block :=
  { hash := some h
    parentHash := some "0x11"
    number := n
    timestamp := 5
    nonce := some "0x0000000000000042"
    difficulty := some 2
    gasLimit := some 30000000
    gasUsed := some 21000
    miner := some "0x22"
    extraData := some "0x33"
    baseFeePerGas := some 7
    transactionsRoot := some "0x44"
    stateRoot := some "0x55"
    receiptsRoot := some "0x66"
    sizeField := none
    transactions := ["a", "b"] }

/-- A block whose mandatory gasLimit field is missing, so transformBlock
throws on it. -/
def badBlock : Block :=
  { sampleBlock 9 "0xdd" with gasLimit := none }

/-- The store produced by saving sampleBlock 1 "0xaa" into an empty table. -/
def store7 : Store :=
  match BlockStorage.saveBlock (sampleBlock 1 "0xaa") [] with
  | .ok (s, _) => s
  | .error _ => []

/-- A bare stored row at height 7. -/
def row7 : Row :=
  { hash := [1], parent_hash := [], number := 7, timestamp := 0, nonce := "0",
    difficulty := "0", gas_limit := "1", gas_used := "1", miner := [],
    extra_data := none, base_fee_per_gas := none, transactions_root := [],
    state_root := [], receipts_root := [], size := 0, transaction_count := 0 }

/-! Helper lemmas about List.foldl Nat.max (used for getLastBlockNumber). -/

lemma le_foldl_max (l : List Nat) (a : Nat) : a ≤ l.foldl Nat.max a := by
  induction l generalizing a with
  | nil => exact Nat.le_refl a
  | cons x xs ih => exact Nat.le_trans (Nat.le_max_left a x) (ih (Nat.max a x))

lemma mem_le_foldl_max (l : List Nat) (a x : Nat) :
    x ∈ l → x ≤ l.foldl Nat.max a := by
  induction l generalizing a with
  | nil => intro hx; cases hx
  | cons y ys ih =>
    intro hx
    rcases List.mem_cons.mp hx with h | h
    · subst h
      exact Nat.le_trans (Nat.le_max_right a x) (le_foldl_max ys (Nat.max a x))
    · exact ih (Nat.max a y) h

lemma foldl_max_mem (l : List Nat) (a : Nat) :
    l.foldl Nat.max a = a ∨ l.foldl Nat.max a ∈ l := by
  induction l generalizing a with
  | nil => exact Or.inl rfl
  | cons y ys ih =>
    rcases ih (Nat.max a y) with h | h
    · have hm : Nat.max a y = a ∨ Nat.max a y = y := by
        rcases Nat.le_total a y with hle | hle
        · exact Or.inr (max_eq_right hle)
        · exact Or.inl (max_eq_left hle)
      rcases hm with h2 | h2
      · left
        rw [List.foldl_cons, h, h2]
      · right
        rw [List.foldl_cons, h, h2]
        exact List.mem_cons_self y ys
    · right
      exact List.mem_cons_of_mem y h

/-! C9 -/

/-- C9 counterexample: with INDEXER_BATCH_SIZE unset the config binding
parses the literal default '10', so batchSize is 10, not the claimed 50. -/
theorem batchSize_default_cex :
    Config.batchSize none = some 10 ∧ some (10 : Nat) ≠ some 50 :=
  ⟨rfl, by decide⟩

/-- C9 (amended): when the environment variable INDEXER_BATCH_SIZE is not
set, the orchestrator's batchSize configuration value is 10 heights per
batch. -/
theorem batchSize_default : Config.batchSize none = some 10 := rfl

/-! C10 -/

/-- C10: saveBlocks on a null or empty block list returns 0 immediately,
leaves the store unchanged, and never enters db.transaction (middle
component false = no BEGIN, no insert issued). -/
theorem saveBlocks_empty_noop (s : Store) :
    BlockStorage.saveBlocks none s = (s, false, .ok 0) ∧
      BlockStorage.saveBlocks (some []) s = (s, false, .ok 0) :=
  ⟨rfl, rfl⟩

/-! C7 -/

/-- C7 counterexample: saving sampleBlock 1 "0xaa" twice from an empty table
leaves the table at store7 both times, but the second call returns true —
it does not report that no new row was inserted. -/
theorem saveBlock_twice_cex :
    BlockStorage.saveBlock (sampleBlock 1 "0xaa") [] = .ok (store7, true) ∧
      BlockStorage.saveBlock (sampleBlock 1 "0xaa") store7 = .ok (store7, true) ∧
      (true : Bool) ≠ false :=
  ⟨rfl, rfl, by decide⟩

/-- Re-inserting a row that a previous insert left in (or found in) the store
hits the hash-conflict clause and is a no-op with rowCount 0. -/
lemma insertRow_self (r : Row) (s s1 : Store) (c : Nat)
    (h : BlockStorage.insertRow r s = .ok (s1, c)) :
    BlockStorage.insertRow r s1 = .ok (s1, 0) := by
  unfold BlockStorage.insertRow at h ⊢
  by_cases hc : s.any (fun q => q.hash = r.hash) = true
  · rw [if_pos hc] at h
    injection h with hp
    have hs : s = s1 := congrArg Prod.fst hp
    subst hs
    rw [if_pos hc]
  · rw [if_neg hc] at h
    by_cases hn : s.any (fun q => q.number = r.number) = true
    · rw [if_pos hn] at h
      exact Except.noConfusion h
    · rw [if_neg hn] at h
      injection h with hp
      have hs : s ++ [r] = s1 := congrArg Prod.fst hp
      rw [← hs]
      have hany : (s ++ [r]).any (fun q => q.hash = r.hash) = true := by
        simp [List.any_append]
      rw [if_pos hany]

/-- C7 (amended): calling saveBlock(b) twice leaves the table in the same
state as calling it once, but the second call again returns true: saveBlock
reports true on every success and never signals a skipped insert. -/
theorem saveBlock_idempotent (b : Block) (s s' : Store) (f : Bool)
    (h : BlockStorage.saveBlock b s = .ok (s', f)) :
    f = true ∧ BlockStorage.saveBlock b s' = .ok (s', true) := by
  cases htr : BlockStorage.transformBlock b with
  | error e => simp [BlockStorage.saveBlock, htr] at h
  | ok r =>
    simp only [BlockStorage.saveBlock, htr] at h ⊢
    cases hins : BlockStorage.insertRow r s with
    | error e =>
      rw [hins] at h
      exact Except.noConfusion h
    | ok p =>
      obtain ⟨s1, c⟩ := p
      rw [hins] at h
      injection h with hp
      have hs1 : s1 = s' := congrArg Prod.fst hp
      have hf : true = f := congrArg Prod.snd hp
      subst hs1
      refine ⟨hf.symm, ?_⟩
      rw [insertRow_self r s s1 c hins]

/-- C7 witness: the amended idempotence theorem applied at the concrete
first save of sampleBlock 1 "0xaa". -/
theorem saveBlock_idempotent_witness :
    BlockStorage.saveBlock (sampleBlock 1 "0xaa") store7 = .ok (store7, true) :=
  (saveBlock_idempotent (sampleBlock 1 "0xaa") [] store7 true rfl).2

/-! C1 -/

/-- C1 counterexample: on an empty store with startBlock = 5, initialize
sets currentBlock to 5, not the claimed startBlock - 1 = 4, so the first
backfill range starts at 6, not at startBlock. -/
theorem initialize_cursor_cex :
    BlockFetcher.initializeCurrentBlock [] 5 = 5 ∧ (5 : Nat) ≠ 5 - 1 :=
  ⟨rfl, by decide⟩

/-- C1 (amended): after initialize(), currentBlock equals highest() when the
store is non-empty and highest() is non-zero, and equals startBlock (not
startBlock - 1) when the store is empty or highest() = 0 (both are falsy in
lastIndexedBlock || startBlock); hence on a cold start the first backfill
range [currentBlock + 1, head] begins at startBlock + 1.  getLastBlockNumber
is the maximum stored height. -/
theorem initialize_cursor (s : Store) (sb h : Nat) :
    (s = [] → BlockFetcher.initializeCurrentBlock s sb = sb) ∧
      (BlockStorage.getLastBlockNumber s = some h →
        ((∃ r ∈ s, r.number = h) ∧ ∀ r ∈ s, r.number ≤ h)) ∧
      (BlockStorage.getLastBlockNumber s = some h → h ≠ 0 →
        BlockFetcher.initializeCurrentBlock s sb = h) ∧
      (BlockStorage.getLastBlockNumber s = some h → h = 0 →
        BlockFetcher.initializeCurrentBlock s sb = sb) := by
  refine ⟨?_, ?_, ?_, ?_⟩
  · intro hs; subst hs; rfl
  · intro hlast
    cases s with
    | nil => exact absurd hlast (by simp [BlockStorage.getLastBlockNumber])
    | cons r rest =>
      have hh : (rest.map Row.number).foldl Nat.max r.number = h := by
        simpa [BlockStorage.getLastBlockNumber] using hlast
      constructor
      · rcases foldl_max_mem (rest.map Row.number) r.number with hm | hm
        · exact ⟨r, List.mem_cons_self r rest, by rw [← hh, hm]⟩
        · rw [hh] at hm
          rcases List.mem_map.mp hm with ⟨r', hr', hnum⟩
          exact ⟨r', List.mem_cons_of_mem r hr', hnum⟩
      · intro q hq
        rcases List.mem_cons.mp hq with hq | hq
        · subst hq
          rw [← hh]
          exact le_foldl_max (rest.map Row.number) q.number
        · rw [← hh]
          exact mem_le_foldl_max (rest.map Row.number) r.number q.number
            (List.mem_map_of_mem Row.number hq)
  · intro hlast hne
    unfold BlockFetcher.initializeCurrentBlock
    rw [hlast]
    simp [hne]
  · intro hlast hz
    unfold BlockFetcher.initializeCurrentBlock
    rw [hlast]
    simp [hz]

/-- C1 witness: the amended cursor theorem at an empty store with
startBlock = 5 and at the one-row store [row7]. -/
theorem initialize_cursor_witness :
    BlockFetcher.initializeCurrentBlock [] 5 = 5 ∧
      BlockFetcher.initializeCurrentBlock [row7] 5 = 7 :=
  ⟨(initialize_cursor [] 5 0).1 rfl,
   (initialize_cursor [row7] 5 7).2.2.1 rfl (by decide)⟩

/-! C2 -/

/-- An ON CONFLICT (hash) DO NOTHING insert either skips (rowCount 0) or
appends the row (rowCount 1); any other successful outcome is impossible. -/
lemma insertRow_cases (r : Row) (s s1 : Store) (c : Nat)
    (h : BlockStorage.insertRow r s = .ok (s1, c)) :
    (s1 = s ∧ c = 0) ∨ (s1 = s ++ [r] ∧ c = 1) := by
  unfold BlockStorage.insertRow at h
  by_cases hc : s.any (fun q => q.hash = r.hash) = true
  · rw [if_pos hc] at h
    injection h with hp
    exact Or.inl ⟨(congrArg Prod.fst hp).symm, (congrArg Prod.snd hp).symm⟩
  · rw [if_neg hc] at h
    by_cases hn : s.any (fun q => q.number = r.number) = true
    · rw [if_pos hn] at h
      exact Except.noConfusion h
    · rw [if_neg hn] at h
      injection h with hp
      exact Or.inr ⟨(congrArg Prod.fst hp).symm, (congrArg Prod.snd hp).symm⟩

/-- A successful transaction body grows the store by exactly the number of
counted inserts, and counts at most one insert per input block. -/
lemma insertLoop_ok_length :
    ∀ (bs : List Block) (s : Store) (saved : Nat) (s' : Store) (n : Nat),
      BlockStorage.insertLoop bs s saved = .ok (s', n) →
      s'.length + saved = s.length + n ∧ n ≤ saved + bs.length := by
  intro bs
  induction bs with
  | nil =>
    intro s saved s' n h
    simp only [BlockStorage.insertLoop] at h
    injection h with hp
    have h1 : s = s' := congrArg Prod.fst hp
    have h2 : saved = n := congrArg Prod.snd hp
    subst h1; subst h2
    exact ⟨rfl, by omega⟩
  | cons b rest ih =>
    intro s saved s' n h
    cases htr : BlockStorage.transformBlock b with
    | error e => simp [BlockStorage.insertLoop, htr] at h
    | ok r =>
      cases hins : BlockStorage.insertRow r s with
      | error e => simp [BlockStorage.insertLoop, htr, hins] at h
      | ok p =>
        obtain ⟨s1, c⟩ := p
        have h' : BlockStorage.insertLoop rest s1
            (if 0 < c then saved + 1 else saved) = .ok (s', n) := by
          simpa [BlockStorage.insertLoop, htr, hins] using h
        rcases insertRow_cases r s s1 c hins with ⟨hs1, hc⟩ | ⟨hs1, hc⟩
        · rw [hs1, hc] at h'
          rcases ih s saved s' n (by simpa using h') with ⟨e1, e2⟩
          refine ⟨e1, ?_⟩
          simp only [List.length_cons]
          omega
        · rw [hs1, hc] at h'
          rcases ih (s ++ [r]) (saved + 1) s' n (by simpa using h') with ⟨e1, e2⟩
          have hl : (s ++ [r]).length = s.length + 1 := by simp
          constructor
          · omega
          · simp only [List.length_cons]
            omega

/-- C2: saveBatch is atomic.  If any transform or insert in the batch raises,
the transaction rolls back — the store is exactly what it was before the
call — and the error is surfaced; on success the returned count is the
number of rows actually added (so hash-conflict skips are counted as skipped,
never as failures), and never exceeds the batch size. -/
theorem saveBlocks_atomic (bs : List Block) (s : Store) (e : String) (n : Nat) :
    ((BlockStorage.saveBlocks (some bs) s).2.2 = .error e →
      (BlockStorage.saveBlocks (some bs) s).1 = s) ∧
    ((BlockStorage.saveBlocks (some bs) s).2.2 = .ok n →
      (BlockStorage.saveBlocks (some bs) s).1.length = s.length + n ∧
        n ≤ bs.length) := by
  by_cases hlen : bs.length = 0
  · have heq : BlockStorage.saveBlocks (some bs) s = (s, false, .ok 0) := by
      simp [BlockStorage.saveBlocks, hlen]
    rw [heq]
    constructor
    · intro herr
      exact absurd herr (by simp)
    · intro hok
      have hn : (0 : Nat) = n := by
        simpa using hok
      subst hn
      exact ⟨by simp, by omega⟩
  · cases hil : BlockStorage.insertLoop bs s 0 with
    | ok p =>
      obtain ⟨s1, m⟩ := p
      have heq : BlockStorage.saveBlocks (some bs) s = (s1, true, .ok m) := by
        simp [BlockStorage.saveBlocks, hlen, hil]
      rw [heq]
      constructor
      · intro herr
        exact absurd herr (by simp)
      · intro hok
        have hm : m = n := by simpa using hok
        subst hm
        rcases insertLoop_ok_length bs s 0 s1 m hil with ⟨e1, e2⟩
        constructor
        · simpa using e1
        · omega
    | error e' =>
      have heq : BlockStorage.saveBlocks (some bs) s = (s, true, .error e') := by
        simp [BlockStorage.saveBlocks, hlen, hil]
      rw [heq]
      constructor
      · intro _
        rfl
      · intro hok
        exact absurd hok (by simp)

/-- C2 witness: the atomicity theorem at a failing two-block batch (second
block lacks gasLimit, so its transform throws and the whole batch rolls
back) and at a succeeding one-block batch. -/
theorem saveBlocks_atomic_witness :
    (BlockStorage.saveBlocks (some [sampleBlock 1 "0xaa", badBlock]) []).1 = [] ∧
      ((BlockStorage.saveBlocks (some [sampleBlock 2 "0xbb"]) []).1.length =
          List.length ([] : Store) + 1 ∧
        1 ≤ List.length [sampleBlock 2 "0xbb"]) :=
  ⟨(saveBlocks_atomic [sampleBlock 1 "0xaa", badBlock] []
      "TypeError: cannot read mandatory block field" 0).1 rfl,
   (saveBlocks_atomic [sampleBlock 2 "0xbb"] [] "" 1).2 rfl⟩

/-! C5 -/

/-- When every height in the window yields a block, the range loop returns
exactly one block per height, in ascending height order. -/
lemma rangeLoop_all_some (fetch : Nat → Except String (Option Block))
    (f : Nat → Block) :
    ∀ (len start : Nat),
      (∀ h, start ≤ h → h < start + len → fetch h = .ok (some (f h))) →
      RpcClient.getBlockRangeLoop fetch start len =
        .ok ((List.range' start len).map f) := by
  intro len
  induction len with
  | zero => intro start _; rfl
  | succ m ih =>
    intro start hcond
    have h0 : fetch start = .ok (some (f start)) :=
      hcond start (Nat.le_refl start) (by omega)
    have hrec : RpcClient.getBlockRangeLoop fetch (start + 1) m =
        .ok ((List.range' (start + 1) m).map f) := by
      refine ih (start + 1) ?_
      intro h h1 h2
      exact hcond h (by omega) (by omega)
    simp [RpcClient.getBlockRangeLoop, h0, hrec, List.range'_succ]

/-- The first fetch error inside the window aborts the whole range call with
that error: no partial result is returned. -/
lemma rangeLoop_first_err (fetch : Nat → Except String (Option Block)) :
    ∀ (len start h0 : Nat) (e : String),
      start ≤ h0 → h0 < start + len → fetch h0 = .error e →
      (∀ h, start ≤ h → h < h0 → ∃ ob, fetch h = .ok ob) →
      RpcClient.getBlockRangeLoop fetch start len = .error e := by
  intro len
  induction len with
  | zero => intro start h0 e h1 h2 _ _; omega
  | succ m ih =>
    intro start h0 e h1 h2 herr hpre
    by_cases hs : h0 = start
    · subst hs
      simp [RpcClient.getBlockRangeLoop, herr]
    · have hlt : start < h0 := by omega
      rcases hpre start (Nat.le_refl start) hlt with ⟨ob, hob⟩
      have hrec : RpcClient.getBlockRangeLoop fetch (start + 1) m = .error e :=
        ih (start + 1) h0 e (by omega) (by omega) herr
          (fun h hh1 hh2 => hpre h (by omega) hh2)

      cases ob with
      | none => simp [RpcClient.getBlockRangeLoop, hob, hrec]
      | some b => simp [RpcClient.getBlockRangeLoop, hob, hrec]

/-- C5 counterexample: with from = 1 ≤ to = 3 and the endpoint reporting no
block at height 2, getBlockRange succeeds with only two blocks — the missing
height is silently omitted instead of failing the call. -/
theorem getRange_missing_cex :
    RpcClient.getBlockRange
        (fun h => if h = 2 then .ok none
          else .ok (some (sampleBlock h "0xaa"))) 1 3 =
      .ok [sampleBlock 1 "0xaa", sampleBlock 3 "0xaa"] ∧
      ([sampleBlock 1 "0xaa", sampleBlock 3 "0xaa"] : List Block).length ≠ 3 - 1 + 1 :=
  ⟨rfl, by decide⟩

/-- C5 (amended): for from ≤ to, when every height in from..=to yields a
block, getRange returns exactly one block per height in ascending order; the
first transport error inside the range fails the whole call with no partial
result; but a height for which the endpoint reports no block is silently
omitted from a successful result rather than treated as a fault. -/
theorem getRange_contract (fetch : Nat → Except String (Option Block))
    (fromB toB : Nat) (f : Nat → Block) (h0 : Nat) (e : String) :
    ((∀ h, fromB ≤ h → h ≤ toB → fetch h = .ok (some (f h))) →
      RpcClient.getBlockRange fetch fromB toB =
        .ok ((List.range' fromB (toB + 1 - fromB)).map f)) ∧
    (fromB ≤ h0 → h0 ≤ toB → fetch h0 = .error e →
      (∀ h, fromB ≤ h → h < h0 → ∃ ob, fetch h = .ok ob) →
      RpcClient.getBlockRange fetch fromB toB = .error e) := by
  constructor
  · intro hall
    refine rangeLoop_all_some fetch f (toB + 1 - fromB) fromB ?_
    intro h h1 h2
    exact hall h h1 (by omega)
  · intro h1 h2 herr hpre
    exact rangeLoop_first_err fetch (toB + 1 - fromB) fromB h0 e h1 (by omega)
      herr hpre

/-- C5 witness: the range contract applied to a fully successful window 1..3
and to a window whose height 2 errors. -/
theorem getRange_contract_witness :
    RpcClient.getBlockRange (fun h => .ok (some (sampleBlock h "0xbb"))) 1 3 =
      .ok ((List.range' 1 (3 + 1 - 1)).map (fun h => sampleBlock h "0xbb")) ∧
      RpcClient.getBlockRange
          (fun h => if h = 2 then .error "boom"
            else .ok (some (sampleBlock h "0xbb"))) 1 3 =
        .error "boom" :=
  ⟨(getRange_contract (fun h => .ok (some (sampleBlock h "0xbb"))) 1 3
      (fun h => sampleBlock h "0xbb") 0 "").1
      (fun h _ _ => rfl),
   (getRange_contract
      (fun h => if h = 2 then .error "boom"
        else .ok (some (sampleBlock h "0xbb"))) 1 3
      (fun h => sampleBlock h "0xbb") 2 "boom").2
      (by omega) (by omega) rfl
      (fun h hh1 hh2 => ⟨some (sampleBlock h "0xbb"), by
        have : h ≠ 2 := by omega
        simp [this]⟩)⟩

/-! C4 -/

/-- Step equation: a successful provider call returns at once. -/
lemma getBlockLoop_cons_ok (oracle : Nat → RpcClient.RpcResp) (a : Nat)
    (rest : List Nat) (b : Block) (h : oracle a = .ok b) :
    RpcClient.getBlockLoop oracle (a :: rest) = ⟨1, [], .ok (some b)⟩ := by
  cases rest <;> simp [RpcClient.getBlockLoop, h]

/-- Step equation: a null response returns at once. -/
lemma getBlockLoop_cons_null (oracle : Nat → RpcClient.RpcResp) (a : Nat)
    (rest : List Nat) (h : oracle a = .nullResp) :
    RpcClient.getBlockLoop oracle (a :: rest) = ⟨1, [], .ok none⟩ := by
  cases rest <;> simp [RpcClient.getBlockLoop, h]

/-- Step equation: an error on the last attempt is thrown. -/
lemma getBlockLoop_err_last (oracle : Nat → RpcClient.RpcResp) (a : Nat)
    (e : String) (h : oracle a = .err e) :
    RpcClient.getBlockLoop oracle [a] = ⟨1, [], .error (some e)⟩ := by
  simp [RpcClient.getBlockLoop, h]

/-- Step equation: an error on a non-final attempt sleeps 2^a seconds and
continues with the remaining attempts. -/
lemma getBlockLoop_cons_err (oracle : Nat → RpcClient.RpcResp) (a : Nat)
    (e : String) (rest : List Nat) (h : oracle a = .err e) (hne : rest ≠ []) :
    RpcClient.getBlockLoop oracle (a :: rest) =
      ⟨(RpcClient.getBlockLoop oracle rest).calls + 1,
        (2 ^ a * 1000) :: (RpcClient.getBlockLoop oracle rest).sleeps,
        (RpcClient.getBlockLoop oracle rest).result⟩ := by
  cases rest with
  | nil => exact absurd rfl hne
  | cons x xs =>
    conv_lhs => rw [RpcClient.getBlockLoop]
    rw [h]

/-- k transient errors followed by a block on attempt a+k (still within the
budget) make the retry loop return that block after k+1 provider calls, with
sleeps 2^a, 2^(a+1), ..., 2^(a+k-1) seconds between consecutive calls. -/
lemma getBlockLoop_success (oracle : Nat → RpcClient.RpcResp) (b : Block)
    (E : Nat → String) :
    ∀ (k a m : Nat), k < m →
      (∀ i, i < k → oracle (a + i) = .err (E (a + i))) →
      oracle (a + k) = .ok b →
      RpcClient.getBlockLoop oracle (List.range' a m) =
        ⟨k + 1, (List.range' a k).map (fun i => 2 ^ i * 1000), .ok (some b)⟩ := by
  intro k
  induction k with
  | zero =>
    intro a m hm _ hok
    obtain ⟨m', rfl⟩ : ∃ m', m = m' + 1 := ⟨m - 1, by omega⟩
    rw [List.range'_succ,
      getBlockLoop_cons_ok oracle a _ b (by simpa using hok)]
    simp
  | succ k ih =>
    intro a m hm herr hok
    obtain ⟨m', rfl⟩ : ∃ m', m = m' + 1 := ⟨m - 1, by omega⟩
    have he0 : oracle a = .err (E a) := by simpa using herr 0 (by omega)
    have hrec : RpcClient.getBlockLoop oracle (List.range' (a + 1) m') =
        ⟨k + 1, (List.range' (a + 1) k).map (fun i => 2 ^ i * 1000),
          .ok (some b)⟩ := by
      refine ih (a + 1) m' (by omega) ?_ ?_
      · intro i hi
        have h1 := herr (i + 1) (by omega)
        have harith : a + (i + 1) = a + 1 + i := by omega
        rwa [harith] at h1
      · have harith : a + (k + 1) = a + 1 + k := by omega
        rwa [harith] at hok
    have hne : List.range' (a + 1) m' ≠ [] := by
      have : m' ≠ 0 := by omega
      simp [List.range'_eq_nil, this]
    rw [List.range'_succ, getBlockLoop_cons_err oracle a (E a) _ he0 hne, hrec]
    simp [List.range'_succ]

/-- Transient errors on every attempt exhaust the budget after m calls with
sleeps after all but the last call, and the loop throws the last error. -/
lemma getBlockLoop_exhaust (oracle : Nat → RpcClient.RpcResp)
    (E : Nat → String) :
    ∀ (m a : Nat), 0 < m →
      (∀ i, i < m → oracle (a + i) = .err (E (a + i))) →
      RpcClient.getBlockLoop oracle (List.range' a m) =
        ⟨m, (List.range' a (m - 1)).map (fun i => 2 ^ i * 1000),
          .error (some (E (a + (m - 1))))⟩ := by
  intro m
  induction m with
  | zero => intro a hm _; omega
  | succ m ih =>
    intro a _ herr
    have he0 : oracle a = .err (E a) := by simpa using herr 0 (by omega)
    cases m with
    | zero =>
      rw [List.range'_succ]
      have : List.range' (a + 1) 0 = [] := rfl
      rw [this, getBlockLoop_err_last oracle a (E a) he0]
      simp
    | succ m' =>
      have hrec : RpcClient.getBlockLoop oracle (List.range' (a + 1) (m' + 1)) =
          ⟨m' + 1, (List.range' (a + 1) m').map (fun i => 2 ^ i * 1000),
            .error (some (E (a + 1 + m')))⟩ := by
        have hh := ih (a + 1) (by omega) ?_
        · simpa using hh
        · intro i hi
          have h1 := herr (i + 1) (by omega)
          have harith : a + (i + 1) = a + 1 + i := by omega
          rwa [harith] at h1
      have hne : List.range' (a + 1) (m' + 1) ≠ [] := by
        simp [List.range'_eq_nil]
      rw [List.range'_succ, getBlockLoop_cons_err oracle a (E a) _ he0 hne, hrec]
      have harith : a + 1 + m' = a + (m' + 1) := by omega
      simp [List.range'_succ, harith]

/-- C4 counterexample: with the default budget of 3 and three consecutive
transient errors then a would-be success, getBlock issues only 3 calls
(sleeping 1 s and 2 s) and throws — not the claimed 4 calls with sleeps
1 s, 2 s, 4 s and a returned block. -/
theorem getBlock_retry_cex :
    RpcClient.getBlock
        (fun i => if i < 3 then .err "transport" else .ok (sampleBlock 1 "0xaa")) 3 =
      ⟨3, [1000, 2000], .error (some "transport")⟩ ∧ (3 : Nat) ≠ 4 :=
  ⟨rfl, by decide⟩

/-- C4 (amended): getBlock makes at most R provider calls in total (default
R = 3), not 1 + R.  With k < R transient errors then a success it issues
k + 1 calls, sleeping 1 s, 2 s, ..., 2^(k-1) s between consecutive calls and
returns the block; a null response on the first call returns null at once
with no retry; R consecutive transient errors exhaust the budget after R
calls and the last error is thrown. -/
theorem getBlock_retry (oracle : Nat → RpcClient.RpcResp) (R k : Nat)
    (b : Block) (E : Nat → String) :
    (k < R → (∀ i, i < k → oracle i = .err (E i)) → oracle k = .ok b →
      RpcClient.getBlock oracle R =
        ⟨k + 1, (List.range' 0 k).map (fun i => 2 ^ i * 1000), .ok (some b)⟩) ∧
    (0 < R → oracle 0 = .nullResp →
      RpcClient.getBlock oracle R = ⟨1, [], .ok none⟩) ∧
    (0 < R → (∀ i, i < R → oracle i = .err (E i)) →
      RpcClient.getBlock oracle R =
        ⟨R, (List.range' 0 (R - 1)).map (fun i => 2 ^ i * 1000),
          .error (some (E (R - 1)))⟩) := by
  refine ⟨?_, ?_, ?_⟩
  · intro hk herr hok
    have := getBlockLoop_success oracle b E k 0 R hk
      (fun i hi => by simpa using herr i hi) (by simpa using hok)
    simpa [RpcClient.getBlock] using this
  · intro hR hnull
    obtain ⟨R', rfl⟩ : ∃ R', R = R' + 1 := ⟨R - 1, by omega⟩
    unfold RpcClient.getBlock
    rw [List.range'_succ]
    simp [RpcClient.getBlockLoop, hnull]
  · intro hR herr
    have := getBlockLoop_exhaust oracle E R 0 hR
      (fun i hi => by simpa using herr i hi)
    simpa [RpcClient.getBlock] using this

/-- C4 witness: the amended retry theorem at a concrete oracle succeeding on
the third call (two sleeps of 1 s and 2 s), at an immediately-null oracle,
and at an always-failing oracle exhausting the default budget of 3. -/
theorem getBlock_retry_witness :
    RpcClient.getBlock
        (fun i => if i < 2 then .err "boom" else .ok (sampleBlock 4 "0xcc")) 3 =
      ⟨3, (List.range' 0 2).map (fun i => 2 ^ i * 1000),
        .ok (some (sampleBlock 4 "0xcc"))⟩ ∧
      RpcClient.getBlock (fun _ => .nullResp) 3 = ⟨1, [], .ok none⟩ ∧
      RpcClient.getBlock (fun _ => .err "down") 3 =
        ⟨3, (List.range' 0 2).map (fun i => 2 ^ i * 1000),
          .error (some "down")⟩ :=
  ⟨(getBlock_retry
      (fun i => if i < 2 then .err "boom" else .ok (sampleBlock 4 "0xcc")) 3 2
      (sampleBlock 4 "0xcc") (fun _ => "boom")).1 (by omega)
      (fun i hi => by
        have h2 : i < 2 := hi
        simp [h2])
      (by norm_num),
   (getBlock_retry (fun _ => .nullResp) 3 0 (sampleBlock 4 "0xcc")
      (fun _ => "")).2.1 (by omega) rfl,
   (getBlock_retry (fun _ => .err "down") 3 0 (sampleBlock 4 "0xcc")
      (fun _ => "down")).2.2 (by omega) (fun i _ => rfl)⟩

/-! C8 -/

/-- Step equation: a successful attempt ends the batch retry loop. -/
lemma batchRetryLoop_cons_ok (run : Nat → Except String Unit) (k : Nat)
    (rest : List Nat) (h : run k = .ok ()) :
    BlockFetcher.batchRetryLoop run (k :: rest) = (1, [], .ok ()) := by
  cases rest <;> simp [BlockFetcher.batchRetryLoop, h]

/-- Step equation: a failure with no retry budget left rethrows the error. -/
lemma batchRetryLoop_err_last (run : Nat → Except String Unit) (k : Nat)
    (e : String) (h : run k = .error e) :
    BlockFetcher.batchRetryLoop run [k] = (1, [], .error e) := by
  simp [BlockFetcher.batchRetryLoop, h]

/-- Step equation: a failure with budget left sleeps 2^(k+1) seconds and
retries. -/
lemma batchRetryLoop_cons_err (run : Nat → Except String Unit) (k : Nat)
    (e : String) (rest : List Nat) (h : run k = .error e) (hne : rest ≠ []) :
    BlockFetcher.batchRetryLoop run (k :: rest) =
      ((BlockFetcher.batchRetryLoop run rest).1 + 1,
        (2 ^ (k + 1) * 1000) :: (BlockFetcher.batchRetryLoop run rest).2.1,
        (BlockFetcher.batchRetryLoop run rest).2.2) := by
  cases rest with
  | nil => exact absurd rfl hne
  | cons x xs =>
    conv_lhs => rw [BlockFetcher.batchRetryLoop]
    rw [h]

/-- k failed attempts then a success make the batch retry return after k+1
attempts with sleeps 2^(a+1), ..., 2^(a+k) seconds. -/
lemma batchRetryLoop_success (run : Nat → Except String Unit)
    (E : Nat → String) :
    ∀ (k a m : Nat), k < m →
      (∀ i, i < k → run (a + i) = .error (E (a + i))) →
      run (a + k) = .ok () →
      BlockFetcher.batchRetryLoop run (List.range' a m) =
        (k + 1, (List.range' a k).map (fun i => 2 ^ (i + 1) * 1000), .ok ()) := by
  intro k
  induction k with
  | zero =>
    intro a m hm _ hok
    obtain ⟨m', rfl⟩ : ∃ m', m = m' + 1 := ⟨m - 1, by omega⟩
    rw [List.range'_succ, batchRetryLoop_cons_ok run a _ (by simpa using hok)]
    simp
  | succ k ih =>
    intro a m hm herr hok
    obtain ⟨m', rfl⟩ : ∃ m', m = m' + 1 := ⟨m - 1, by omega⟩
    have he0 : run a = .error (E a) := by simpa using herr 0 (by omega)
    have hrec : BlockFetcher.batchRetryLoop run (List.range' (a + 1) m') =
        (k + 1, (List.range' (a + 1) k).map (fun i => 2 ^ (i + 1) * 1000),
          .ok ()) := by
      refine ih (a + 1) m' (by omega) ?_ ?_
      · intro i hi
        have h1 := herr (i + 1) (by omega)
        have harith : a + (i + 1) = a + 1 + i := by omega
        rwa [harith] at h1
      · have harith : a + (k + 1) = a + 1 + k := by omega
        rwa [harith] at hok
    have hne : List.range' (a + 1) m' ≠ [] := by
      have : m' ≠ 0 := by omega
      simp [List.range'_eq_nil, this]
    rw [List.range'_succ, batchRetryLoop_cons_err run a (E a) _ he0 hne, hrec]
    simp [List.range'_succ]

/-- Failures on every attempt exhaust the budget and rethrow the last
error. -/
lemma batchRetryLoop_exhaust (run : Nat → Except String Unit)
    (E : Nat → String) :
    ∀ (m a : Nat), 0 < m →
      (∀ i, i < m → run (a + i) = .error (E (a + i))) →
      BlockFetcher.batchRetryLoop run (List.range' a m) =
        (m, (List.range' a (m - 1)).map (fun i => 2 ^ (i + 1) * 1000),
          .error (E (a + (m - 1)))) := by
  intro m
  induction m with
  | zero => intro a hm _; omega
  | succ m ih =>
    intro a _ herr
    have he0 : run a = .error (E a) := by simpa using herr 0 (by omega)
    cases m with
    | zero =>
      rw [List.range'_succ]
      have hnil : List.range' (a + 1) 0 = [] := rfl
      rw [hnil, batchRetryLoop_err_last run a (E a) he0]
      simp
    | succ m' =>
      have hrec : BlockFetcher.batchRetryLoop run (List.range' (a + 1) (m' + 1)) =
          (m' + 1, (List.range' (a + 1) m').map (fun i => 2 ^ (i + 1) * 1000),
            .error (E (a + 1 + m'))) := by
        have hh := ih (a + 1) (by omega) ?_
        · simpa using hh
        · intro i hi
          have h1 := herr (i + 1) (by omega)
          have harith : a + (i + 1) = a + 1 + i := by omega
          rwa [harith] at h1
      have hne : List.range' (a + 1) (m' + 1) ≠ [] := by
        simp [List.range'_eq_nil]
      rw [List.range'_succ, batchRetryLoop_cons_err run a (E a) _ he0 hne, hrec]
      have harith : a + 1 + m' = a + (m' + 1) := by omega
      simp [List.range'_succ, harith]

/-- The syncHistoricalBlocks bookkeeping: walking the settled outcomes counts
fulfilled batches and appends each rejected batch to the failed list without
aborting. -/
lemma trackBatchResults_spec (runBatch : Nat × Nat → Except String Unit) :
    ∀ (batches : List (Nat × Nat)) (acc : Nat × List (Nat × Nat)),
      batches.foldl
        (fun acc b =>
          match runBatch b with
          | .ok _ => (acc.1 + 1, acc.2)
          | .error _ => (acc.1, acc.2 ++ [b]))
        acc =
      (acc.1 + (batches.filter
          (fun bt => match runBatch bt with
            | .ok _ => true
            | .error _ => false)).length,
        acc.2 ++ batches.filter
          (fun bt => match runBatch bt with
            | .ok _ => false
            | .error _ => true)) := by
  intro batches
  induction batches with
  | nil => intro acc; simp
  | cons b rest ih =>
    intro acc
    cases hb : runBatch b with
    | ok u =>
      obtain ⟨⟩ := u
      rw [List.foldl_cons]
      have hstep : (match runBatch b with
          | .ok _ => (acc.1 + 1, acc.2)
          | .error _ => (acc.1, acc.2 ++ [b])) = (acc.1 + 1, acc.2) := by
        rw [hb]
      rw [hstep, ih]
      simp [List.filter_cons, hb]
      omega
    | error e =>
      rw [List.foldl_cons]
      have hstep : (match runBatch b with
          | .ok _ => (acc.1 + 1, acc.2)
          | .error _ => (acc.1, acc.2 ++ [b])) = (acc.1, acc.2 ++ [b]) := by
        rw [hb]
      rw [hstep, ih]
      simp [List.filter_cons, hb]

/-- C8: fetchAndCommitWithRetry runs the fetch-check-save unit at most R + 1
times with sleeps 2 s, 4 s, 8 s, ... between consecutive attempts, returns on
the first success, rethrows the last error after the final failure, and the
sync loop's caller records a rejected batch on the failed list (it filters,
never aborts). -/
theorem fetchAndSaveBatchWithRetry_spec (run : Nat → Except String Unit)
    (R k : Nat) (E : Nat → String) :
    (k ≤ R → (∀ i, i < k → run i = .error (E i)) → run k = .ok () →
      BlockFetcher.fetchAndSaveBatchWithRetry run R =
        (k + 1, (List.range' 0 k).map (fun i => 2 ^ (i + 1) * 1000), .ok ())) ∧
    ((∀ i, i ≤ R → run i = .error (E i)) →
      BlockFetcher.fetchAndSaveBatchWithRetry run R =
        (R + 1, (List.range' 0 R).map (fun i => 2 ^ (i + 1) * 1000),
          .error (E R))) ∧
    (∀ (runBatch : Nat × Nat → Except String Unit)
        (batches : List (Nat × Nat)),
      (BlockFetcher.trackBatchResults runBatch batches).2 =
        batches.filter
          (fun bt => match runBatch bt with
            | .ok _ => false
            | .error _ => true)) := by
  refine ⟨?_, ?_, ?_⟩
  · intro hk herr hok
    have hh := batchRetryLoop_success run E k 0 (R + 1) (by omega)
      (fun i hi => by simpa using herr i hi) (by simpa using hok)
    simpa [BlockFetcher.fetchAndSaveBatchWithRetry] using hh
  · intro herr
    have hh := batchRetryLoop_exhaust run E (R + 1) 0 (by omega)
      (fun i hi => by simpa using herr i (by omega))
    simpa [BlockFetcher.fetchAndSaveBatchWithRetry] using hh
  · intro runBatch batches
    rw [BlockFetcher.trackBatchResults, trackBatchResults_spec runBatch batches (0, [])]
    simp

/-- C8 witness: the retry theorem at a unit failing once then succeeding
(two attempts, one 2 s sleep), at a unit failing on all four attempts with
the default budget 3 (sleeps 2 s, 4 s, 8 s), and at a concrete batch list
whose middle batch fails. -/
theorem fetchAndSaveBatchWithRetry_witness :
    BlockFetcher.fetchAndSaveBatchWithRetry
        (fun i => if i = 0 then .error "db down" else .ok ()) 3 =
      (2, (List.range' 0 1).map (fun i => 2 ^ (i + 1) * 1000), .ok ()) ∧
      BlockFetcher.fetchAndSaveBatchWithRetry (fun _ => .error "down") 3 =
        (4, (List.range' 0 3).map (fun i => 2 ^ (i + 1) * 1000),
          .error "down") ∧
      (BlockFetcher.trackBatchResults
          (fun bt => if bt.1 = 20 then .error "x" else .ok ())
          [(10, 19), (20, 29), (30, 39)]).2 =
        [(10, 19), (20, 29), (30, 39)].filter
          (fun bt =>
            match (if bt.1 = 20 then Except.error "x"
              else Except.ok () : Except String Unit) with
            | Except.ok _ => false
            | Except.error _ => true) :=
  ⟨(fetchAndSaveBatchWithRetry_spec
      (fun i => if i = 0 then .error "db down" else .ok ()) 3 1
      (fun _ => "db down")).1 (by omega)
      (fun i hi => by
        have h0 : i = 0 := by omega
        simp [h0])
      rfl,
   (fetchAndSaveBatchWithRetry_spec (fun _ => .error "down") 3 0
      (fun _ => "down")).2.1 (fun i _ => rfl),
   (fetchAndSaveBatchWithRetry_spec (fun _ => .ok ()) 0 0 (fun _ => "")).2.2
      (fun bt => if bt.1 = 20 then .error "x" else .ok ())
      [(10, 19), (20, 29), (30, 39)]⟩

/-! C3 -/

/-- A block that does not trigger the reorg branch is skipped and the scan
continues with the rest of the batch. -/
lemma checkForReorgs_skip (b : Block) (rest : List Block) (s : Store)
    (cur : Nat) (h : BlockFetcher.triggersReorg b s = false) :
    BlockFetcher.checkForReorgs (b :: rest) s cur =
      BlockFetcher.checkForReorgs rest s cur := by
  by_cases h0 : b.number = 0
  · simp [BlockFetcher.checkForReorgs, h0]
  · cases hrow : BlockStorage.getBlock b.number s with
    | none => simp [BlockFetcher.checkForReorgs, h0, hrow]
    | some row =>
      have hhash : some ("0x" ++ hexEncode row.hash) = b.hash := by
        simpa [BlockFetcher.triggersReorg, h0, hrow] using h
      simp [BlockFetcher.checkForReorgs, h0, hrow, hhash]

/-- A block that triggers the reorg branch deletes the stored rows from its
height, rewinds the cursor, and stops the scan. -/
lemma checkForReorgs_hit (b : Block) (rest : List Block) (s : Store)
    (cur : Nat) (h : BlockFetcher.triggersReorg b s = true) :
    BlockFetcher.checkForReorgs (b :: rest) s cur =
      ((BlockStorage.deleteBlocksFrom b.number s).1, b.number - 1) := by
  have h0 : b.number ≠ 0 := by
    by_contra hz
    simp [BlockFetcher.triggersReorg, hz] at h
  cases hrow : BlockStorage.getBlock b.number s with
  | none => simp [BlockFetcher.triggersReorg, h0, hrow] at h
  | some row =>
    have hhash : some ("0x" ++ hexEncode row.hash) ≠ b.hash := by
      simpa [BlockFetcher.triggersReorg, h0, hrow] using h
    simp [BlockFetcher.checkForReorgs, h0, hrow, hhash]

/-- A batch in which no block triggers the branch leaves store and cursor
untouched. -/
lemma checkForReorgs_none (s : Store) (cur : Nat) :
    ∀ (bs : List Block),
      (∀ b' ∈ bs, BlockFetcher.triggersReorg b' s = false) →
      BlockFetcher.checkForReorgs bs s cur = (s, cur) := by
  intro bs
  induction bs with
  | nil => intro _; rfl
  | cons b rest ih =>
    intro hall
    rw [checkForReorgs_skip b rest s cur (hall b (List.mem_cons_self b rest))]
    exact ih (fun b' hb' => hall b' (List.mem_cons_of_mem b hb'))

/-- C3: with reorg checking enabled, the first fetched block whose stored row
exists under a different hash causes exactly the rows at its height and above
to be deleted, sets currentBlock to that height minus one and stops the scan
(the result does not depend on the remaining blocks); a batch of genesis
blocks, unseen heights and matching hashes changes nothing; and
fetchAndSaveBatch then hands the post-reorg store to saveBlocks, so the new
canonical blocks are written over the vacated range. -/
theorem checkForReorgs_spec (pre : List Block) (b : Block) (post : List Block)
    (s : Store) (cur : Nat) :
    ((∀ b' ∈ pre, BlockFetcher.triggersReorg b' s = false) →
      BlockFetcher.triggersReorg b s = true →
      (BlockFetcher.checkForReorgs (pre ++ b :: post) s cur =
          ((BlockStorage.deleteBlocksFrom b.number s).1, b.number - 1) ∧
        (∀ r ∈ (BlockStorage.deleteBlocksFrom b.number s).1,
          r.number < b.number) ∧
        (BlockStorage.deleteBlocksFrom b.number s).2 =
          (s.filter (fun r => decide (b.number ≤ r.number))).length)) ∧
    ((∀ b' ∈ pre ++ b :: post, BlockFetcher.triggersReorg b' s = false) →
      BlockFetcher.checkForReorgs (pre ++ b :: post) s cur = (s, cur)) ∧
    (∀ (fetch : Nat → Except String (Option Block)) (fromB toB : Nat)
        (blocks : List Block),
      RpcClient.getBlockRange fetch fromB toB = .ok blocks →
      blocks.length ≠ 0 →
      (BlockFetcher.fetchAndSaveBatch fetch fromB toB true s cur).1 =
        ((BlockStorage.saveBlocks (some blocks)
            (BlockFetcher.checkForReorgs blocks s cur).1).1,
          (BlockFetcher.checkForReorgs blocks s cur).2)) := by
  refine ⟨?_, ?_, ?_⟩
  · intro hpre htrig
    refine ⟨?_, ?_, rfl⟩
    · induction pre with
      | nil => exact checkForReorgs_hit b post s cur htrig
      | cons p ps ih =>
        rw [List.cons_append,
          checkForReorgs_skip p (ps ++ b :: post) s cur
            (hpre p (List.mem_cons_self p ps))]
        exact ih (fun b' hb' => hpre b' (List.mem_cons_of_mem p hb'))
    · intro r hr
      have := List.of_mem_filter hr
      simpa using this
  · intro hall
    exact checkForReorgs_none s cur (pre ++ b :: post) hall
  · intro fetch fromB toB blocks hr hne
    unfold BlockFetcher.fetchAndSaveBatch
    rw [hr]
    simp only [if_neg hne]
    cases hsv : BlockStorage.saveBlocks (some blocks)
        (BlockFetcher.checkForReorgs blocks s cur).1 with
    | mk s2 p2 =>
      obtain ⟨tx, res⟩ := p2
      cases res <;> simp [hsv]

/-- A stored row at height n whose canonical hash is 0xaa. -/
def rowAt (n : Nat) : Row :=
  { row7 with number := n, hash := [170] }

/-- C3 witness: a store holding heights 1..3 under hash 0xaa, scanned against
a batch whose height-2 block carries hash 0xbb: the matching height-1 block
is skipped, height 2 triggers, rows 2 and 3 are deleted, the cursor rewinds
to 1; and a batch matching everywhere changes nothing. -/
theorem checkForReorgs_spec_witness :
    BlockFetcher.checkForReorgs
        [sampleBlock 1 "0xaa", sampleBlock 2 "0xbb", sampleBlock 3 "0xcc"]
        [rowAt 1, rowAt 2, rowAt 3] 9 =
      ((BlockStorage.deleteBlocksFrom 2 [rowAt 1, rowAt 2, rowAt 3]).1, 2 - 1) ∧
      BlockFetcher.checkForReorgs [sampleBlock 1 "0xaa"]
        [rowAt 1, rowAt 2, rowAt 3] 9 = ([rowAt 1, rowAt 2, rowAt 3], 9) :=
  ⟨((checkForReorgs_spec [sampleBlock 1 "0xaa"] (sampleBlock 2 "0xbb")
      [sampleBlock 3 "0xcc"] [rowAt 1, rowAt 2, rowAt 3] 9).1
      (by decide) (by decide)).1,
   (checkForReorgs_spec [] (sampleBlock 1 "0xaa") []
      [rowAt 1, rowAt 2, rowAt 3] 9).2.1 (by decide)⟩

/-! C6 -/

/-- C6: at the failing input sampleBlock 3 "0xabcd" (nonce
"0x0000000000000042"), transformBlock hex-decodes hash to raw bytes but
passes nonce through as the raw JS string — it is never 0x-stripped or
decoded, although the nonce column is BYTEA like the decoded fields. -/
theorem transform_nonce_not_decoded :
    (BlockStorage.transformBlock (sampleBlock 3 "0xabcd")).map
        (fun r => (r.nonce, r.hash)) =
      .ok ("0x0000000000000042", [171, 205]) := rfl
